import Mathlib

/-!
Shallow embedding of `src/ulinux/smbus.py` (ev3dev/micropython-linux):
a MicroPython implementation of the Linux `i2c_smbus_*` user-space API.

The Python module talks to an I2C adapter through two ioctls per
transaction (`I2C_SLAVE` then `I2C_SMBUS`), marshalling the request into
the kernel's `i2c_smbus_ioctl_data` / `i2c_smbus_data` structures via
fixed-offset `uctypes` overlays.  Here the kernel side is a parameter
(`Kern`): it maps the submitted transaction to the data buffer the kernel
writes back.  Every operation returns its result (`Except`, since the
capability gate can raise `RuntimeError`) together with the list of ioctl
events it issued, in order.
-/

namespace ULinuxSMBus

/-! ## Constants from linux/i2c.h, as in the source -/

def _I2C_FUNC_I2C : Nat := 0x00000001
def _I2C_FUNC_10BIT_ADDR : Nat := 0x00000002
def _I2C_FUNC_PROTOCOL_MANGLING : Nat := 0x00000004
def _I2C_FUNC_SMBUS_PEC : Nat := 0x00000008
def _I2C_FUNC_NOSTART : Nat := 0x00000010
def _I2C_FUNC_SLAVE : Nat := 0x00000020
def _I2C_FUNC_SMBUS_BLOCK_PROC_CALL : Nat := 0x00008000
def _I2C_FUNC_SMBUS_QUICK : Nat := 0x00010000
def _I2C_FUNC_SMBUS_READ_BYTE : Nat := 0x00020000
def _I2C_FUNC_SMBUS_WRITE_BYTE : Nat := 0x00040000
def _I2C_FUNC_SMBUS_READ_BYTE_DATA : Nat := 0x00080000
def _I2C_FUNC_SMBUS_WRITE_BYTE_DATA : Nat := 0x00100000
def _I2C_FUNC_SMBUS_READ_WORD_DATA : Nat := 0x00200000
def _I2C_FUNC_SMBUS_WRITE_WORD_DATA : Nat := 0x00400000
def _I2C_FUNC_SMBUS_PROC_CALL : Nat := 0x00800000
def _I2C_FUNC_SMBUS_READ_BLOCK_DATA : Nat := 0x01000000
def _I2C_FUNC_SMBUS_WRITE_BLOCK_DATA : Nat := 0x02000000
def _I2C_FUNC_SMBUS_READ_I2C_BLOCK : Nat := 0x04000000
def _I2C_FUNC_SMBUS_WRITE_I2C_BLOCK : Nat := 0x08000000

def _I2C_SMBUS_BLOCK_MAX : Nat := 32

def _I2C_SMBUS_READ : Nat := 1
def _I2C_SMBUS_WRITE : Nat := 0

def _I2C_SMBUS_QUICK : Nat := 0
def _I2C_SMBUS_BYTE : Nat := 1
def _I2C_SMBUS_BYTE_DATA : Nat := 2
def _I2C_SMBUS_WORD_DATA : Nat := 3
def _I2C_SMBUS_PROC_CALL : Nat := 4
def _I2C_SMBUS_BLOCK_DATA : Nat := 5
def _I2C_SMBUS_I2C_BLOCK_BROKEN : Nat := 6
def _I2C_SMBUS_BLOCK_PROC_CALL : Nat := 7
def _I2C_SMBUS_I2C_BLOCK_DATA : Nat := 8

/-! ## Constants from linux/i2c-dev.h, as in the source -/

def _I2C_RETRIES : Nat := 0x0701
def _I2C_TIMEOUT : Nat := 0x0702
def _I2C_SLAVE : Nat := 0x0703
def _I2C_SLAVE_FORCE : Nat := 0x0706
def _I2C_TENBIT : Nat := 0x0704
def _I2C_FUNCS : Nat := 0x0705
def _I2C_RDWR : Nat := 0x0707
def _I2C_PEC : Nat := 0x0708
def _I2C_SMBUS : Nat := 0x0720

/-! ## The uctypes field layouts

`uctypes` descriptors pair a scalar type with a byte offset.  The target
is a little-endian 32-bit platform (the EV3's ARM), so a pointer is 4
bytes wide. -/

inductive UType where
  | UINT8
  | UINT16
  | UINT32
  | PTR
deriving Repr, DecidableEq

def UType.width : UType → Nat
  | .UINT8 => 1
  | .UINT16 => 2
  | .UINT32 => 4
  | .PTR => 4

structure Field where
  off : Nat
  ty : UType
deriving Repr, DecidableEq

/-- `_i2c_smbus_data` layout: `'byte': UINT8 | 0`. -/
def i2c_smbus_data_byte : Field := ⟨0, .UINT8⟩

/-- `_i2c_smbus_data` layout: `'word': UINT16 | 0`. -/
def i2c_smbus_data_word : Field := ⟨0, .UINT16⟩

/-- `_i2c_smbus_data` layout: `'block': (ARRAY | 0, UINT8 | (_I2C_SMBUS_BLOCK_MAX + 2))`. -/
def i2c_smbus_data_block_off : Nat := 0

def i2c_smbus_data_block_count : Nat := _I2C_SMBUS_BLOCK_MAX + 2

/-- `sizeof(_i2c_smbus_data)`: the extent of the largest field. -/
def _size_of_i2c_smbus_data : Nat :=
  max (i2c_smbus_data_byte.off + i2c_smbus_data_byte.ty.width)
    (max (i2c_smbus_data_word.off + i2c_smbus_data_word.ty.width)
      (i2c_smbus_data_block_off + i2c_smbus_data_block_count))

/-- `_i2c_smbus_ioctl_data` layout: `'read_write': UINT8 | 0`. -/
def i2c_smbus_ioctl_data_read_write : Field := ⟨0, .UINT8⟩

/-- `_i2c_smbus_ioctl_data` layout: `'command': UINT8 | 1`. -/
def i2c_smbus_ioctl_data_command : Field := ⟨1, .UINT8⟩

/-- `_i2c_smbus_ioctl_data` layout: `'size': UINT32 | 4`. -/
def i2c_smbus_ioctl_data_size : Field := ⟨4, .UINT32⟩

/-- `_i2c_smbus_ioctl_data` layout: `'data': PTR | 8`. -/
def i2c_smbus_ioctl_data_data : Field := ⟨8, .PTR⟩

/-- `sizeof(_i2c_smbus_ioctl_data)`: the extent of the largest field. -/
def _size_of_i2c_smbus_ioctl_data : Nat :=
  max (i2c_smbus_ioctl_data_read_write.off + i2c_smbus_ioctl_data_read_write.ty.width)
    (max (i2c_smbus_ioctl_data_command.off + i2c_smbus_ioctl_data_command.ty.width)
      (max (i2c_smbus_ioctl_data_size.off + i2c_smbus_ioctl_data_size.ty.width)
        (i2c_smbus_ioctl_data_data.off + i2c_smbus_ioctl_data_data.ty.width)))

/-! ## Byte buffers and the uctypes scalar accessors

A buffer is a `List Nat` of byte values.  Scalar stores truncate the
value to the field width and lay the bytes out little-endian, exactly as
`uctypes` does on the (little-endian) target. -/

/-- Store `v` little-endian into `width` bytes of `buf` starting at `off`. -/
def storeBytesLE (buf : List Nat) (off : Nat) : Nat → Nat → List Nat
  | 0, _ => buf
  | w + 1, v => storeBytesLE (buf.set off (v % 256)) (off + 1) w (v / 256)

/-- Load a little-endian scalar of `width` bytes from `buf` at `off`. -/
def loadBytesLE (buf : List Nat) (off : Nat) : Nat → Nat
  | 0 => 0
  | w + 1 => buf.getD off 0 + 256 * loadBytesLE buf (off + 1) w

/-- Assignment through a uctypes scalar field descriptor. -/
def storeField (buf : List Nat) (f : Field) (v : Nat) : List Nat :=
  storeBytesLE buf f.off f.ty.width v

/-- Read through a uctypes scalar field descriptor. -/
def loadField (buf : List Nat) (f : Field) : Nat :=
  loadBytesLE buf f.off f.ty.width

/-- `data.byte = v` on an `_i2c_smbus_data` buffer. -/
def byteSet (buf : List Nat) (v : Nat) : List Nat :=
  storeField buf i2c_smbus_data_byte v

/-- `data.byte` on an `_i2c_smbus_data` buffer. -/
def byteGet (buf : List Nat) : Nat :=
  loadField buf i2c_smbus_data_byte

/-- `data.word = v` on an `_i2c_smbus_data` buffer. -/
def wordSet (buf : List Nat) (v : Nat) : List Nat :=
  storeField buf i2c_smbus_data_word v

/-- `data.word` on an `_i2c_smbus_data` buffer. -/
def wordGet (buf : List Nat) : Nat :=
  loadField buf i2c_smbus_data_word

/-- `data.block = xs`: uctypes writes the list elementwise (each truncated
to a byte) from the start of the array; trailing bytes keep their value. -/
def blockSet (buf : List Nat) (xs : List Nat) : List Nat :=
  xs.map (· % 256) ++ buf.drop xs.length

/-- `data.block[1:][:data.block[0]]`: the demarshalling slice shared by
`read_block_data`, `read_i2c_block_data` and `block_process_call`. -/
def blockSlice (buf : List Nat) : List Nat :=
  (buf.drop 1).take (buf.getD 0 0)

/-- A fresh `bytearray(_size_of_i2c_smbus_data)`. -/
def freshData : List Nat := List.replicate _size_of_i2c_smbus_data 0

/-! ## The ioctl trace and the kernel model -/

/-- One ioctl issued by the module, with its request number.
`ioctlSmbus` records the fields of the marshalled `i2c_smbus_ioctl_data`
(the `data` component is the buffer the pointer refers to, `none` when
`data` is `None`). -/
inductive Event where
  | ioctlFuncs (request : Nat)
  | ioctlSlave (request : Nat) (address : Nat)
  | ioctlSmbus (request : Nat) (read_write command size : Nat)
      (data : Option (List Nat))
deriving Repr, DecidableEq

/-- The ioctl request number of an event. -/
def Event.req : Event → Nat
  | .ioctlFuncs r => r
  | .ioctlSlave r _ => r
  | .ioctlSmbus r _ _ _ _ => r

/-- The kernel's side of the `I2C_SMBUS` ioctl: given the addressed slave,
direction, command, size code and the submitted data buffer, the buffer
contents after the ioctl returns. -/
def Kern : Type := Nat → Nat → Nat → Nat → List Nat → List Nat

/-- The marshalled `i2c_smbus_ioctl_data` request bytes, exactly as
`_access` populates them through the uctypes overlay (`data_ptr` stands
for `addressof(data)`). -/
def marshalIoctlData (read_write command size data_ptr : Nat) : List Nat :=
  let b0 := List.replicate _size_of_i2c_smbus_ioctl_data 0
  let b1 := storeField b0 i2c_smbus_ioctl_data_read_write read_write
  let b2 := storeField b1 i2c_smbus_ioctl_data_command command
  let b3 := storeField b2 i2c_smbus_ioctl_data_size size
  storeField b3 i2c_smbus_ioctl_data_data data_ptr

/-! ## The capability set (`self._func`) -/

structure Funcs where
  i2c : Bool
  ten_bit_addr : Bool
  protocol_mangling : Bool
  smbus_pec : Bool
  no_start : Bool
  slave : Bool
  smbus_block_proc_call : Bool
  smbus_quick : Bool
  smbus_read_byte : Bool
  smbus_write_byte : Bool
  smbus_read_byte_data : Bool
  smbus_write_byte_data : Bool
  smbus_read_word_data : Bool
  smbus_write_word_data : Bool
  smbus_proc_call : Bool
  smbus_read_block_data : Bool
  smbus_write_block_data : Bool
  smbus_read_i2c_block : Bool
  smbus_write_i2c_block : Bool
deriving Repr, DecidableEq

/-- The capability dictionary built in `SMBus.__init__` from the 32-bit
flags word returned by the `I2C_FUNCS` ioctl (`bool(flags & BIT)` per
entry). -/
def mkFuncs (flags : Nat) : Funcs where
  i2c := flags &&& _I2C_FUNC_I2C != 0
  ten_bit_addr := flags &&& _I2C_FUNC_10BIT_ADDR != 0
  protocol_mangling := flags &&& _I2C_FUNC_PROTOCOL_MANGLING != 0
  smbus_pec := flags &&& _I2C_FUNC_SMBUS_PEC != 0
  no_start := flags &&& _I2C_FUNC_NOSTART != 0
  slave := flags &&& _I2C_FUNC_SLAVE != 0
  smbus_block_proc_call := flags &&& _I2C_FUNC_SMBUS_BLOCK_PROC_CALL != 0
  smbus_quick := flags &&& _I2C_FUNC_SMBUS_QUICK != 0
  smbus_read_byte := flags &&& _I2C_FUNC_SMBUS_READ_BYTE != 0
  smbus_write_byte := flags &&& _I2C_FUNC_SMBUS_WRITE_BYTE != 0
  smbus_read_byte_data := flags &&& _I2C_FUNC_SMBUS_READ_BYTE_DATA != 0
  smbus_write_byte_data := flags &&& _I2C_FUNC_SMBUS_WRITE_BYTE_DATA != 0
  smbus_read_word_data := flags &&& _I2C_FUNC_SMBUS_READ_WORD_DATA != 0
  smbus_write_word_data := flags &&& _I2C_FUNC_SMBUS_WRITE_WORD_DATA != 0
  smbus_proc_call := flags &&& _I2C_FUNC_SMBUS_PROC_CALL != 0
  smbus_read_block_data := flags &&& _I2C_FUNC_SMBUS_READ_BLOCK_DATA != 0
  smbus_write_block_data := flags &&& _I2C_FUNC_SMBUS_WRITE_BLOCK_DATA != 0
  smbus_read_i2c_block := flags &&& _I2C_FUNC_SMBUS_READ_I2C_BLOCK != 0
  smbus_write_i2c_block := flags &&& _I2C_FUNC_SMBUS_WRITE_I2C_BLOCK != 0

/-- `SMBus.__init__` after the device node is open: a single `I2C_FUNCS`
ioctl reads the 32-bit flags word (supplied here by the kernel as
`flags`), and the capability set is computed from it once. -/
def SMBus_init (flags : Nat) : Funcs × List Event :=
  (mkFuncs flags, [Event.ioctlFuncs _I2C_FUNCS])

/-! ## Generic dispatch and the public operations

Each operation takes the session's capability set and the kernel model,
and returns its `Except` result paired with the ioctl trace it issued.
`RuntimeError` is the string raised by the capability gate. -/

def unsupportedMsg : String := "Function is not supported by the hardware"

/-- `SMBus._access`: re-address the slave, then execute the SMBus
transaction.  Returns the data buffer as overwritten by the kernel
(when a buffer was passed) and the two ioctl events, in order. -/
def _access (k : Kern) (address read_write command size : Nat)
    (data : Option (List Nat)) : Option (List Nat) × List Event :=
  (data.map (k address read_write command size),
   [Event.ioctlSlave _I2C_SLAVE address,
    Event.ioctlSmbus _I2C_SMBUS read_write command size data])

def write_quick (func : Funcs) (k : Kern) (address value : Nat) :
    Except String Unit × List Event :=
  if func.smbus_quick then
    let r := _access k address value 0 _I2C_SMBUS_QUICK none
    (Except.ok (), r.2)
  else
    (Except.error unsupportedMsg, [])

def read_byte (func : Funcs) (k : Kern) (address : Nat) :
    Except String Nat × List Event :=
  if func.smbus_read_byte then
    let data := freshData
    let r := _access k address _I2C_SMBUS_READ 0 _I2C_SMBUS_BYTE (some data)
    (Except.ok (byteGet (r.1.getD data)), r.2)
  else
    (Except.error unsupportedMsg, [])

def write_byte (func : Funcs) (k : Kern) (address value : Nat) :
    Except String Unit × List Event :=
  if func.smbus_write_byte then
    let r := _access k address _I2C_SMBUS_WRITE value _I2C_SMBUS_BYTE none
    (Except.ok (), r.2)
  else
    (Except.error unsupportedMsg, [])

def read_byte_data (func : Funcs) (k : Kern) (address command : Nat) :
    Except String Nat × List Event :=
  if func.smbus_read_byte_data then
    let data := freshData
    let r := _access k address _I2C_SMBUS_READ command _I2C_SMBUS_BYTE_DATA
      (some data)
    (Except.ok (byteGet (r.1.getD data)), r.2)
  else
    (Except.error unsupportedMsg, [])

def write_byte_data (func : Funcs) (k : Kern) (address command value : Nat) :
    Except String Unit × List Event :=
  if func.smbus_write_byte_data then
    let data := byteSet freshData value
    let r := _access k address _I2C_SMBUS_WRITE command _I2C_SMBUS_BYTE_DATA
      (some data)
    (Except.ok (), r.2)
  else
    (Except.error unsupportedMsg, [])

def read_word_data (func : Funcs) (k : Kern) (address command : Nat) :
    Except String Nat × List Event :=
  if func.smbus_read_word_data then
    let data := freshData
    let r := _access k address _I2C_SMBUS_READ command _I2C_SMBUS_WORD_DATA
      (some data)
    (Except.ok (wordGet (r.1.getD data)), r.2)
  else
    (Except.error unsupportedMsg, [])

def write_word_data (func : Funcs) (k : Kern) (address command value : Nat) :
    Except String Unit × List Event :=
  if func.smbus_write_word_data then
    let data := wordSet freshData value
    let r := _access k address _I2C_SMBUS_WRITE command _I2C_SMBUS_WORD_DATA
      (some data)
    (Except.ok (), r.2)
  else
    (Except.error unsupportedMsg, [])

def process_call (func : Funcs) (k : Kern) (address command value : Nat) :
    Except String Nat × List Event :=
  if func.smbus_proc_call then
    let data := wordSet freshData value
    let r := _access k address _I2C_SMBUS_WRITE command _I2C_SMBUS_PROC_CALL
      (some data)
    (Except.ok (wordGet (r.1.getD data)), r.2)
  else
    (Except.error unsupportedMsg, [])

def read_block_data (func : Funcs) (k : Kern) (address command : Nat) :
    Except String (List Nat) × List Event :=
  if func.smbus_read_block_data then
    let data := freshData
    let r := _access k address _I2C_SMBUS_READ command _I2C_SMBUS_BLOCK_DATA
      (some data)
    (Except.ok (blockSlice (r.1.getD data)), r.2)
  else
    (Except.error unsupportedMsg, [])

def write_block_data (func : Funcs) (k : Kern) (address command : Nat)
    (values : List Nat) : Except String Unit × List Event :=
  if func.smbus_write_block_data then
    let values := values.take 32
    let data := blockSet freshData (values.length :: values)
    let r := _access k address _I2C_SMBUS_WRITE command _I2C_SMBUS_BLOCK_DATA
      (some data)
    (Except.ok (), r.2)
  else
    (Except.error unsupportedMsg, [])

def read_i2c_block_data (func : Funcs) (k : Kern) (address command length : Nat) :
    Except String (List Nat) × List Event :=
  if func.smbus_read_i2c_block then
    let length := min length 32
    let data := (freshData).set 0 (length % 256)
    let size := if length == 32 then _I2C_SMBUS_I2C_BLOCK_BROKEN
      else _I2C_SMBUS_I2C_BLOCK_DATA
    let r := _access k address _I2C_SMBUS_READ command size (some data)
    (Except.ok (blockSlice (r.1.getD data)), r.2)
  else
    (Except.error unsupportedMsg, [])

def write_i2c_block_data (func : Funcs) (k : Kern) (address command : Nat)
    (values : List Nat) : Except String Unit × List Event :=
  if func.smbus_write_i2c_block then
    let values := values.take 32
    let data := blockSet freshData (values.length :: values)
    let r := _access k address _I2C_SMBUS_WRITE command
      _I2C_SMBUS_I2C_BLOCK_BROKEN (some data)
    (Except.ok (), r.2)
  else
    (Except.error unsupportedMsg, [])

def block_process_call (func : Funcs) (k : Kern) (address command : Nat)
    (values : List Nat) : Except String (List Nat) × List Event :=
  if func.smbus_block_proc_call then
    let values := values.take 32
    let data := blockSet freshData (values.length :: values)
    let r := _access k address _I2C_SMBUS_WRITE command
      _I2C_SMBUS_BLOCK_PROC_CALL (some data)
    (Except.ok (blockSlice (r.1.getD data)), r.2)
  else
    (Except.error unsupportedMsg, [])

/-! ## Trace projections used by the theorems -/

/-- The `size` field of the `I2C_SMBUS` transaction in a dispatch trace. -/
def sentSize : List Event → Nat
  | [_, Event.ioctlSmbus _ _ _ s _] => s
  | _ => 0

/-- The data buffer submitted with the `I2C_SMBUS` transaction of a
dispatch trace (`[]` when no buffer was passed). -/
def sentData : List Event → List Nat
  | [_, Event.ioctlSmbus _ _ _ _ (some d)] => d
  | _ => []

/-- The `read_write` field of the `I2C_SMBUS` transaction in a trace. -/
def sentReadWrite : List Event → Nat
  | [_, Event.ioctlSmbus _ rw _ _ _] => rw
  | _ => 0

/-- A kernel that returns the submitted buffer unchanged (used to
instantiate theorems at concrete inputs). -/
def kEcho : Kern := fun _ _ _ _ d => d

/-! ## Theorems -/

lemma replicate_twelve : List.replicate 12 (0 : Nat) = [0,0,0,0,0,0,0,0,0,0,0,0] := rfl

lemma freshData_explicit : freshData =
    [0,0,0,0,0,0,0,0,0,0,0,0,0,0,0,0,0,
     0,0,0,0,0,0,0,0,0,0,0,0,0,0,0,0,0] := rfl

/-- Claim C3: for every dispatched transaction, the marshalled
`i2c_smbus_ioctl_data` request buffer has `read_write` at byte offset 0
(width 1), `command` at byte offset 1 (width 1), the size code at byte
offsets 4–7 (width 4, little-endian), and the data-buffer pointer at byte
offset 8; the `i2c_smbus_data` buffer it references is exactly 34 bytes
(1 length byte + 32 payload bytes + 1 reserved byte). -/
theorem ioctl_request_and_data_layout (rw cmd size ptr : Nat) :
    i2c_smbus_ioctl_data_read_write = ⟨0, .UINT8⟩ ∧
    i2c_smbus_ioctl_data_command = ⟨1, .UINT8⟩ ∧
    i2c_smbus_ioctl_data_size = ⟨4, .UINT32⟩ ∧
    i2c_smbus_ioctl_data_data.off = 8 ∧
    UType.width .UINT8 = 1 ∧
    UType.width .UINT32 = 4 ∧
    (marshalIoctlData rw cmd size ptr).getD 0 0 = rw % 256 ∧
    (marshalIoctlData rw cmd size ptr).getD 1 0 = cmd % 256 ∧
    loadBytesLE (marshalIoctlData rw cmd size ptr) 4 4 = size % 2 ^ 32 ∧
    loadBytesLE (marshalIoctlData rw cmd size ptr) 8 4 = ptr % 2 ^ 32 ∧
    _size_of_i2c_smbus_data = 1 + _I2C_SMBUS_BLOCK_MAX + 1 ∧
    freshData.length = 34 := by
  refine ⟨rfl, rfl, rfl, rfl, rfl, rfl, ?_, ?_, ?_, ?_, rfl, rfl⟩ <;>
    simp [marshalIoctlData, storeField, storeBytesLE, loadBytesLE,
      _size_of_i2c_smbus_ioctl_data, i2c_smbus_ioctl_data_read_write,
      i2c_smbus_ioctl_data_command, i2c_smbus_ioctl_data_size,
      i2c_smbus_ioctl_data_data, UType.width, replicate_twelve, List.set] <;>
    omega

/-- Claim C5: word values are marshalled as exactly 16 bits little-endian:
`write_word_data` and `process_call` submit a buffer whose byte 0 is the
low byte of the value and byte 1 the high byte, `read_word_data` decodes
bytes 0–1 of the kernel-populated buffer little-endian, and a 16-bit word
written then read from the same buffer round-trips unchanged. -/
theorem word_marshal_little_endian (func : Funcs) (k : Kern) (a c v : Nat)
    (hw : func.smbus_write_word_data = true)
    (hp : func.smbus_proc_call = true)
    (hr : func.smbus_read_word_data = true) :
    sentData (write_word_data func k a c v).2 = wordSet freshData v ∧
    (wordSet freshData v).getD 0 0 = v % 256 ∧
    (wordSet freshData v).getD 1 0 = v / 256 % 256 ∧
    sentData (process_call func k a c v).2 = wordSet freshData v ∧
    (∀ b : List Nat, wordGet b = b.getD 0 0 + 256 * b.getD 1 0) ∧
    (read_word_data func k a c).1 =
      Except.ok (wordGet (k a _I2C_SMBUS_READ c _I2C_SMBUS_WORD_DATA freshData)) ∧
    (v < 2 ^ 16 → wordGet (wordSet freshData v) = v) := by
  have hround : wordGet (wordSet freshData v) = v % 2 ^ 16 := by
    simp [wordGet, wordSet, storeField, loadField, storeBytesLE, loadBytesLE,
      i2c_smbus_data_word, UType.width, freshData_explicit, List.set]
    omega
  refine ⟨?_, ?_, ?_, ?_, ?_, ?_, ?_⟩
  · simp [write_word_data, hw, _access, sentData]
  · simp [wordSet, storeField, storeBytesLE, i2c_smbus_data_word, UType.width,
      freshData_explicit, List.set]
  · simp [wordSet, storeField, storeBytesLE, i2c_smbus_data_word, UType.width,
      freshData_explicit, List.set]
  · simp [process_call, hp, _access, sentData]
  · intro b
    simp [wordGet, loadField, loadBytesLE, i2c_smbus_data_word, UType.width]
  · simp [read_word_data, hr, _access]
  · intro hv
    rw [hround, Nat.mod_eq_of_lt hv]

/-- Claim C5 witness: writing `0x1234` puts bytes `0x34, 0x12` in the
buffer and the word round-trips. -/
theorem word_marshal_little_endian_witness :
    sentData (write_word_data (mkFuncs 0xFFFFFFFF) kEcho 5 0x10 0x1234).2 =
      wordSet freshData 0x1234 ∧
    (wordSet freshData 0x1234).getD 0 0 = 0x34 ∧
    (wordSet freshData 0x1234).getD 1 0 = 0x12 ∧
    wordGet (wordSet freshData 0x1234) = 0x1234 := by
  have h := word_marshal_little_endian (mkFuncs 0xFFFFFFFF) kEcho 5 0x10 0x1234
    (by decide) (by decide) (by decide)
  exact ⟨h.1, h.2.1, h.2.2.1, h.2.2.2.2.2.2 (by decide)⟩

/-- Claim C1: for every public SMBus operation and every session whose
capability entry required by that operation is false, the call raises
`RuntimeError` and issues no ioctl at all: the result is the
unsupported-function error paired with an empty ioctl trace. -/
theorem capability_gate_blocks_io (func : Funcs) (k : Kern)
    (a cmd v len : Nat) (vals : List Nat) :
    (func.smbus_quick = false →
      write_quick func k a v = (Except.error unsupportedMsg, [])) ∧
    (func.smbus_read_byte = false →
      read_byte func k a = (Except.error unsupportedMsg, [])) ∧
    (func.smbus_write_byte = false →
      write_byte func k a v = (Except.error unsupportedMsg, [])) ∧
    (func.smbus_read_byte_data = false →
      read_byte_data func k a cmd = (Except.error unsupportedMsg, [])) ∧
    (func.smbus_write_byte_data = false →
      write_byte_data func k a cmd v = (Except.error unsupportedMsg, [])) ∧
    (func.smbus_read_word_data = false →
      read_word_data func k a cmd = (Except.error unsupportedMsg, [])) ∧
    (func.smbus_write_word_data = false →
      write_word_data func k a cmd v = (Except.error unsupportedMsg, [])) ∧
    (func.smbus_proc_call = false →
      process_call func k a cmd v = (Except.error unsupportedMsg, [])) ∧
    (func.smbus_read_block_data = false →
      read_block_data func k a cmd = (Except.error unsupportedMsg, [])) ∧
    (func.smbus_write_block_data = false →
      write_block_data func k a cmd vals = (Except.error unsupportedMsg, [])) ∧
    (func.smbus_read_i2c_block = false →
      read_i2c_block_data func k a cmd len = (Except.error unsupportedMsg, [])) ∧
    (func.smbus_write_i2c_block = false →
      write_i2c_block_data func k a cmd vals = (Except.error unsupportedMsg, [])) ∧
    (func.smbus_block_proc_call = false →
      block_process_call func k a cmd vals = (Except.error unsupportedMsg, [])) := by
  exact ⟨fun h => by simp [write_quick, h],
    fun h => by simp [read_byte, h],
    fun h => by simp [write_byte, h],
    fun h => by simp [read_byte_data, h],
    fun h => by simp [write_byte_data, h],
    fun h => by simp [read_word_data, h],
    fun h => by simp [write_word_data, h],
    fun h => by simp [process_call, h],
    fun h => by simp [read_block_data, h],
    fun h => by simp [write_block_data, h],
    fun h => by simp [read_i2c_block_data, h],
    fun h => by simp [write_i2c_block_data, h],
    fun h => by simp [block_process_call, h]⟩

/-- Claim C1 witness: on a session with no capabilities (flags word 0),
every operation errors out with an empty ioctl trace. -/
theorem capability_gate_blocks_io_witness :
    write_quick (mkFuncs 0) kEcho 5 1 = (Except.error unsupportedMsg, []) ∧
    read_byte (mkFuncs 0) kEcho 5 = (Except.error unsupportedMsg, []) ∧
    write_byte (mkFuncs 0) kEcho 5 1 = (Except.error unsupportedMsg, []) ∧
    read_byte_data (mkFuncs 0) kEcho 5 2 = (Except.error unsupportedMsg, []) ∧
    write_byte_data (mkFuncs 0) kEcho 5 2 1 = (Except.error unsupportedMsg, []) ∧
    read_word_data (mkFuncs 0) kEcho 5 2 = (Except.error unsupportedMsg, []) ∧
    write_word_data (mkFuncs 0) kEcho 5 2 1 = (Except.error unsupportedMsg, []) ∧
    process_call (mkFuncs 0) kEcho 5 2 1 = (Except.error unsupportedMsg, []) ∧
    read_block_data (mkFuncs 0) kEcho 5 2 = (Except.error unsupportedMsg, []) ∧
    write_block_data (mkFuncs 0) kEcho 5 2 [1] = (Except.error unsupportedMsg, []) ∧
    read_i2c_block_data (mkFuncs 0) kEcho 5 2 4 = (Except.error unsupportedMsg, []) ∧
    write_i2c_block_data (mkFuncs 0) kEcho 5 2 [1] = (Except.error unsupportedMsg, []) ∧
    block_process_call (mkFuncs 0) kEcho 5 2 [1] = (Except.error unsupportedMsg, []) := by
  have h := capability_gate_blocks_io (mkFuncs 0) kEcho 5 2 1 4 [1]
  exact ⟨h.1 (by decide), h.2.1 (by decide), h.2.2.1 (by decide),
    h.2.2.2.1 (by decide), h.2.2.2.2.1 (by decide), h.2.2.2.2.2.1 (by decide),
    h.2.2.2.2.2.2.1 (by decide), h.2.2.2.2.2.2.2.1 (by decide),
    h.2.2.2.2.2.2.2.2.1 (by decide), h.2.2.2.2.2.2.2.2.2.1 (by decide),
    h.2.2.2.2.2.2.2.2.2.2.1 (by decide), h.2.2.2.2.2.2.2.2.2.2.2.1 (by decide),
    h.2.2.2.2.2.2.2.2.2.2.2.2 (by decide)⟩

/-- Claim C2: `read_i2c_block_data` submits the legacy size code 6
(`_I2C_SMBUS_I2C_BLOCK_BROKEN`) exactly when the effective (clamped)
length is 32, the standard size code 8 (`_I2C_SMBUS_I2C_BLOCK_DATA`) for
every length 1..31, and `write_i2c_block_data` submits size code 6 for
every input. -/
theorem i2c_block_size_code_selection (func : Funcs) (k : Kern)
    (a c len : Nat) (vals : List Nat)
    (hr : func.smbus_read_i2c_block = true)
    (hw : func.smbus_write_i2c_block = true) :
    (sentSize (read_i2c_block_data func k a c len).2 =
        _I2C_SMBUS_I2C_BLOCK_BROKEN ↔ min len 32 = 32) ∧
    (1 ≤ len → len ≤ 31 →
      sentSize (read_i2c_block_data func k a c len).2 =
        _I2C_SMBUS_I2C_BLOCK_DATA) ∧
    sentSize (write_i2c_block_data func k a c vals).2 =
      _I2C_SMBUS_I2C_BLOCK_BROKEN := by
  have hsz : sentSize (read_i2c_block_data func k a c len).2 =
      if min len 32 == 32 then _I2C_SMBUS_I2C_BLOCK_BROKEN
      else _I2C_SMBUS_I2C_BLOCK_DATA := by
    by_cases h : min len 32 = 32 <;>
      simp [read_i2c_block_data, hr, _access, sentSize, h]
  refine ⟨?_, ?_, ?_⟩
  · rw [hsz]
    by_cases h : min len 32 = 32 <;>
      simp [h, _I2C_SMBUS_I2C_BLOCK_BROKEN, _I2C_SMBUS_I2C_BLOCK_DATA]
  · intro h1 h2
    rw [hsz]
    have hne : (min len 32 == 32) = false := by
      simp
      omega
    simp [hne]
  · simp [write_i2c_block_data, hw, _access, sentSize]

/-- Claim C2 witness: on a fully capable session, an effective length of
32 selects size code 6, a length of 7 selects size code 8, and a
7-element arbitrary-length write selects size code 6. -/
theorem i2c_block_size_code_selection_witness :
    sentSize (read_i2c_block_data (mkFuncs 0xFFFFFFFF) kEcho 5 2 32).2 =
      _I2C_SMBUS_I2C_BLOCK_BROKEN ∧
    sentSize (read_i2c_block_data (mkFuncs 0xFFFFFFFF) kEcho 5 2 7).2 =
      _I2C_SMBUS_I2C_BLOCK_DATA ∧
    sentSize (write_i2c_block_data (mkFuncs 0xFFFFFFFF) kEcho 5 2
      [1, 2, 3, 4, 5, 6, 7]).2 = _I2C_SMBUS_I2C_BLOCK_BROKEN := by
  have h32 := i2c_block_size_code_selection (mkFuncs 0xFFFFFFFF) kEcho 5 2 32
    [1, 2, 3, 4, 5, 6, 7] (by decide) (by decide)
  have h7 := i2c_block_size_code_selection (mkFuncs 0xFFFFFFFF) kEcho 5 2 7
    [1, 2, 3, 4, 5, 6, 7] (by decide) (by decide)
  exact ⟨h32.1.mpr (by decide), h7.2.1 (by decide) (by decide), h7.2.2⟩

/-- Claim C8: with the `smbus_quick` capability present,
`write_quick(address, 1)` completes without error and submits a
transaction with size code quick (0), `read_write` field 1 (the caller's
value), and no data buffer. -/
theorem write_quick_one_semantics (func : Funcs) (k : Kern) (a : Nat)
    (h : func.smbus_quick = true) :
    write_quick func k a 1 =
      (Except.ok (), [Event.ioctlSlave _I2C_SLAVE a,
        Event.ioctlSmbus _I2C_SMBUS 1 0 _I2C_SMBUS_QUICK none]) ∧
    sentReadWrite (write_quick func k a 1).2 = 1 ∧
    sentSize (write_quick func k a 1).2 = _I2C_SMBUS_QUICK ∧
    sentData (write_quick func k a 1).2 = [] := by
  refine ⟨?_, ?_, ?_, ?_⟩ <;>
    simp [write_quick, h, _access, sentReadWrite, sentSize, sentData,
      _I2C_SLAVE, _I2C_SMBUS, _I2C_SMBUS_QUICK]

/-- Claim C8 witness: `write_quick 5 1` on a fully capable session. -/
theorem write_quick_one_semantics_witness :
    write_quick (mkFuncs 0xFFFFFFFF) kEcho 5 1 =
      (Except.ok (), [Event.ioctlSlave _I2C_SLAVE 5,
        Event.ioctlSmbus _I2C_SMBUS 1 0 _I2C_SMBUS_QUICK none]) ∧
    sentReadWrite (write_quick (mkFuncs 0xFFFFFFFF) kEcho 5 1).2 = 1 := by
  have h := write_quick_one_semantics (mkFuncs 0xFFFFFFFF) kEcho 5 (by decide)
  exact ⟨h.1, h.2.1⟩

lemma blockSet_head_tail (xs : List Nat) (hb : ∀ v ∈ xs, v < 256)
    (hn : xs.length ≤ 32) :
    (blockSet freshData (xs.length :: xs)).getD 0 0 = xs.length ∧
    ((blockSet freshData (xs.length :: xs)).drop 1).take xs.length = xs := by
  have hmap : xs.map (· % 256) = xs := by
    calc xs.map (· % 256) = xs.map id :=
          List.map_congr_left (fun a ha => Nat.mod_eq_of_lt (hb a ha))
      _ = xs := List.map_id xs
  have hlt : xs.length % 256 = xs.length := Nat.mod_eq_of_lt (by omega)
  constructor
  · simp [blockSet, hlt]
  · simp only [blockSet, List.map_cons, hmap, hlt, List.cons_append,
      List.drop_succ_cons, List.drop_zero]
    rw [show xs.length = xs.length + 0 from rfl]
    simp [List.take_append]

/-- Claim C4: `write_block_data`, `write_i2c_block_data` and
`block_process_call` all submit the same data buffer: byte 0 is
`min (len values) 32`, bytes 1..that are the first `min (len values) 32`
elements of `values` in order, inputs longer than 32 are silently
truncated with no error raised, and the length byte is always in
`[0, 32]`. -/
theorem block_write_truncation (func : Funcs) (k : Kern) (a c : Nat)
    (vals : List Nat)
    (h1 : func.smbus_write_block_data = true)
    (h2 : func.smbus_write_i2c_block = true)
    (h3 : func.smbus_block_proc_call = true)
    (hb : ∀ v ∈ vals, v < 256) :
    (sentData (write_block_data func k a c vals).2).getD 0 0 =
      min vals.length 32 ∧
    ((sentData (write_block_data func k a c vals).2).drop 1).take
      (min vals.length 32) = vals.take 32 ∧
    (write_block_data func k a c vals).1 = Except.ok () ∧
    sentData (write_i2c_block_data func k a c vals).2 =
      sentData (write_block_data func k a c vals).2 ∧
    (write_i2c_block_data func k a c vals).1 = Except.ok () ∧
    sentData (block_process_call func k a c vals).2 =
      sentData (write_block_data func k a c vals).2 ∧
    (∃ r, (block_process_call func k a c vals).1 = Except.ok r) ∧
    min vals.length 32 ≤ 32 := by
  have hxs : ∀ v ∈ vals.take 32, v < 256 :=
    fun v hv => hb v (List.take_subset 32 vals hv)
  have hn : (vals.take 32).length ≤ 32 := by
    rw [List.length_take]
    omega
  have hmain := blockSet_head_tail (vals.take 32) hxs hn
  have hsd : sentData (write_block_data func k a c vals).2 =
      blockSet freshData ((vals.take 32).length :: vals.take 32) := by
    simp [write_block_data, h1, _access, sentData]
  have hlen : (vals.take 32).length = min vals.length 32 := by
    rw [List.length_take]
    omega
  refine ⟨?_, ?_, ?_, ?_, ?_, ?_, ?_, ?_⟩
  · rw [hsd, ← hlen]
    exact hmain.1
  · rw [hsd, ← hlen]
    exact hmain.2
  · simp [write_block_data, h1]
  · simp [write_block_data, write_i2c_block_data, h1, h2, _access, sentData]
  · simp [write_i2c_block_data, h2]
  · simp [write_block_data, block_process_call, h1, h3, _access, sentData]
  · simp [block_process_call, h3, _access]
  · omega

/-- Claim C4 witness: a 40-element input is truncated to its first 32
elements, the length byte is 32, and no error is raised. -/
theorem block_write_truncation_witness :
    (sentData (write_block_data (mkFuncs 0xFFFFFFFF) kEcho 5 2
      (List.range 40)).2).getD 0 0 = 32 ∧
    ((sentData (write_block_data (mkFuncs 0xFFFFFFFF) kEcho 5 2
      (List.range 40)).2).drop 1).take 32 = (List.range 40).take 32 ∧
    (write_block_data (mkFuncs 0xFFFFFFFF) kEcho 5 2 (List.range 40)).1 =
      Except.ok () ∧
    (write_i2c_block_data (mkFuncs 0xFFFFFFFF) kEcho 5 2
      (List.range 40)).1 = Except.ok () := by
  have h := block_write_truncation (mkFuncs 0xFFFFFFFF) kEcho 5 2
    (List.range 40) (by decide) (by decide) (by decide) (by decide)
  have e : min (List.range 40).length 32 = 32 := by decide
  rw [e] at h
  exact ⟨h.1, h.2.1, h.2.2.1, h.2.2.2.2.1⟩

/-! ### Per-operation trace characterizations -/

lemma trace_write_quick (func : Funcs) (k : Kern) (a v : Nat) :
    (write_quick func k a v).2 =
      if func.smbus_quick then (_access k a v 0 _I2C_SMBUS_QUICK none).2
      else [] := by
  by_cases h : func.smbus_quick <;> simp [write_quick, h]

lemma trace_read_byte (func : Funcs) (k : Kern) (a : Nat) :
    (read_byte func k a).2 =
      if func.smbus_read_byte then
        (_access k a _I2C_SMBUS_READ 0 _I2C_SMBUS_BYTE (some freshData)).2
      else [] := by
  by_cases h : func.smbus_read_byte <;> simp [read_byte, h]

lemma trace_write_byte (func : Funcs) (k : Kern) (a v : Nat) :
    (write_byte func k a v).2 =
      if func.smbus_write_byte then
        (_access k a _I2C_SMBUS_WRITE v _I2C_SMBUS_BYTE none).2
      else [] := by
  by_cases h : func.smbus_write_byte <;> simp [write_byte, h]

lemma trace_read_byte_data (func : Funcs) (k : Kern) (a cmd : Nat) :
    (read_byte_data func k a cmd).2 =
      if func.smbus_read_byte_data then
        (_access k a _I2C_SMBUS_READ cmd _I2C_SMBUS_BYTE_DATA
          (some freshData)).2
      else [] := by
  by_cases h : func.smbus_read_byte_data <;> simp [read_byte_data, h]

lemma trace_write_byte_data (func : Funcs) (k : Kern) (a cmd v : Nat) :
    (write_byte_data func k a cmd v).2 =
      if func.smbus_write_byte_data then
        (_access k a _I2C_SMBUS_WRITE cmd _I2C_SMBUS_BYTE_DATA
          (some (byteSet freshData v))).2
      else [] := by
  by_cases h : func.smbus_write_byte_data <;> simp [write_byte_data, h]

lemma trace_read_word_data (func : Funcs) (k : Kern) (a cmd : Nat) :
    (read_word_data func k a cmd).2 =
      if func.smbus_read_word_data then
        (_access k a _I2C_SMBUS_READ cmd _I2C_SMBUS_WORD_DATA
          (some freshData)).2
      else [] := by
  by_cases h : func.smbus_read_word_data <;> simp [read_word_data, h]

lemma trace_write_word_data (func : Funcs) (k : Kern) (a cmd v : Nat) :
    (write_word_data func k a cmd v).2 =
      if func.smbus_write_word_data then
        (_access k a _I2C_SMBUS_WRITE cmd _I2C_SMBUS_WORD_DATA
          (some (wordSet freshData v))).2
      else [] := by
  by_cases h : func.smbus_write_word_data <;> simp [write_word_data, h]

lemma trace_process_call (func : Funcs) (k : Kern) (a cmd v : Nat) :
    (process_call func k a cmd v).2 =
      if func.smbus_proc_call then
        (_access k a _I2C_SMBUS_WRITE cmd _I2C_SMBUS_PROC_CALL
          (some (wordSet freshData v))).2
      else [] := by
  by_cases h : func.smbus_proc_call <;> simp [process_call, h]

lemma trace_read_block_data (func : Funcs) (k : Kern) (a cmd : Nat) :
    (read_block_data func k a cmd).2 =
      if func.smbus_read_block_data then
        (_access k a _I2C_SMBUS_READ cmd _I2C_SMBUS_BLOCK_DATA
          (some freshData)).2
      else [] := by
  by_cases h : func.smbus_read_block_data <;> simp [read_block_data, h]

lemma trace_write_block_data (func : Funcs) (k : Kern) (a cmd : Nat)
    (vals : List Nat) :
    (write_block_data func k a cmd vals).2 =
      if func.smbus_write_block_data then
        (_access k a _I2C_SMBUS_WRITE cmd _I2C_SMBUS_BLOCK_DATA
          (some (blockSet freshData
            ((vals.take 32).length :: vals.take 32)))).2
      else [] := by
  by_cases h : func.smbus_write_block_data <;> simp [write_block_data, h]

lemma trace_read_i2c_block_data (func : Funcs) (k : Kern) (a cmd len : Nat) :
    (read_i2c_block_data func k a cmd len).2 =
      if func.smbus_read_i2c_block then
        (_access k a _I2C_SMBUS_READ cmd
          (if min len 32 == 32 then _I2C_SMBUS_I2C_BLOCK_BROKEN
            else _I2C_SMBUS_I2C_BLOCK_DATA)
          (some (freshData.set 0 (min len 32 % 256)))).2
      else [] := by
  by_cases h : func.smbus_read_i2c_block <;> simp [read_i2c_block_data, h]

lemma trace_write_i2c_block_data (func : Funcs) (k : Kern) (a cmd : Nat)
    (vals : List Nat) :
    (write_i2c_block_data func k a cmd vals).2 =
      if func.smbus_write_i2c_block then
        (_access k a _I2C_SMBUS_WRITE cmd _I2C_SMBUS_I2C_BLOCK_BROKEN
          (some (blockSet freshData
            ((vals.take 32).length :: vals.take 32)))).2
      else [] := by
  by_cases h : func.smbus_write_i2c_block <;> simp [write_i2c_block_data, h]

lemma trace_block_process_call (func : Funcs) (k : Kern) (a cmd : Nat)
    (vals : List Nat) :
    (block_process_call func k a cmd vals).2 =
      if func.smbus_block_proc_call then
        (_access k a _I2C_SMBUS_WRITE cmd _I2C_SMBUS_BLOCK_PROC_CALL
          (some (blockSet freshData
            ((vals.take 32).length :: vals.take 32)))).2
      else [] := by
  by_cases h : func.smbus_block_proc_call <;> simp [block_process_call, h]

lemma access_req_ne_funcs (k : Kern) (a rw c s : Nat)
    (d : Option (List Nat)) :
    ∀ e ∈ (_access k a rw c s d).2, Event.req e ≠ _I2C_FUNCS := by
  intro e he
  simp [_access] at he
  rcases he with rfl | rfl <;>
    simp [Event.req, _I2C_SLAVE, _I2C_SMBUS, _I2C_FUNCS]

/-- Claim C6: every call reaching `_access` issues exactly two ioctls in a
fixed order: first set-slave-address (`I2C_SLAVE` = 0x0703) with the
target address, then execute-SMBus-transaction (`I2C_SMBUS` = 0x0720)
with the marshalled request; this holds for every public operation that
passes its capability gate, on every call, so the addressing ioctl is
never skipped on a repeated call. -/
theorem access_two_ioctls_in_order (func : Funcs) (k : Kern)
    (a rw c s v cmd len : Nat) (d : Option (List Nat)) (vals : List Nat) :
    (_access k a rw c s d).2 =
      [Event.ioctlSlave _I2C_SLAVE a,
        Event.ioctlSmbus _I2C_SMBUS rw c s d] ∧
    _I2C_SLAVE = 0x0703 ∧
    _I2C_SMBUS = 0x0720 ∧
    (func.smbus_quick = true → ∃ r1 c1 s1 d1,
      (write_quick func k a v).2 = [Event.ioctlSlave _I2C_SLAVE a,
        Event.ioctlSmbus _I2C_SMBUS r1 c1 s1 d1]) ∧
    (func.smbus_read_byte = true → ∃ r1 c1 s1 d1,
      (read_byte func k a).2 = [Event.ioctlSlave _I2C_SLAVE a,
        Event.ioctlSmbus _I2C_SMBUS r1 c1 s1 d1]) ∧
    (func.smbus_write_byte = true → ∃ r1 c1 s1 d1,
      (write_byte func k a v).2 = [Event.ioctlSlave _I2C_SLAVE a,
        Event.ioctlSmbus _I2C_SMBUS r1 c1 s1 d1]) ∧
    (func.smbus_read_byte_data = true → ∃ r1 c1 s1 d1,
      (read_byte_data func k a cmd).2 = [Event.ioctlSlave _I2C_SLAVE a,
        Event.ioctlSmbus _I2C_SMBUS r1 c1 s1 d1]) ∧
    (func.smbus_write_byte_data = true → ∃ r1 c1 s1 d1,
      (write_byte_data func k a cmd v).2 = [Event.ioctlSlave _I2C_SLAVE a,
        Event.ioctlSmbus _I2C_SMBUS r1 c1 s1 d1]) ∧
    (func.smbus_read_word_data = true → ∃ r1 c1 s1 d1,
      (read_word_data func k a cmd).2 = [Event.ioctlSlave _I2C_SLAVE a,
        Event.ioctlSmbus _I2C_SMBUS r1 c1 s1 d1]) ∧
    (func.smbus_write_word_data = true → ∃ r1 c1 s1 d1,
      (write_word_data func k a cmd v).2 = [Event.ioctlSlave _I2C_SLAVE a,
        Event.ioctlSmbus _I2C_SMBUS r1 c1 s1 d1]) ∧
    (func.smbus_proc_call = true → ∃ r1 c1 s1 d1,
      (process_call func k a cmd v).2 = [Event.ioctlSlave _I2C_SLAVE a,
        Event.ioctlSmbus _I2C_SMBUS r1 c1 s1 d1]) ∧
    (func.smbus_read_block_data = true → ∃ r1 c1 s1 d1,
      (read_block_data func k a cmd).2 = [Event.ioctlSlave _I2C_SLAVE a,
        Event.ioctlSmbus _I2C_SMBUS r1 c1 s1 d1]) ∧
    (func.smbus_write_block_data = true → ∃ r1 c1 s1 d1,
      (write_block_data func k a cmd vals).2 =
        [Event.ioctlSlave _I2C_SLAVE a,
          Event.ioctlSmbus _I2C_SMBUS r1 c1 s1 d1]) ∧
    (func.smbus_read_i2c_block = true → ∃ r1 c1 s1 d1,
      (read_i2c_block_data func k a cmd len).2 =
        [Event.ioctlSlave _I2C_SLAVE a,
          Event.ioctlSmbus _I2C_SMBUS r1 c1 s1 d1]) ∧
    (func.smbus_write_i2c_block = true → ∃ r1 c1 s1 d1,
      (write_i2c_block_data func k a cmd vals).2 =
        [Event.ioctlSlave _I2C_SLAVE a,
          Event.ioctlSmbus _I2C_SMBUS r1 c1 s1 d1]) ∧
    (func.smbus_block_proc_call = true → ∃ r1 c1 s1 d1,
      (block_process_call func k a cmd vals).2 =
        [Event.ioctlSlave _I2C_SLAVE a,
          Event.ioctlSmbus _I2C_SMBUS r1 c1 s1 d1]) := by
  refine ⟨rfl, rfl, rfl, ?_, ?_, ?_, ?_, ?_, ?_, ?_, ?_, ?_, ?_, ?_, ?_, ?_⟩
  · intro h
    rw [trace_write_quick, if_pos h]
    exact ⟨_, _, _, _, rfl⟩
  · intro h
    rw [trace_read_byte, if_pos h]
    exact ⟨_, _, _, _, rfl⟩
  · intro h
    rw [trace_write_byte, if_pos h]
    exact ⟨_, _, _, _, rfl⟩
  · intro h
    rw [trace_read_byte_data, if_pos h]
    exact ⟨_, _, _, _, rfl⟩
  · intro h
    rw [trace_write_byte_data, if_pos h]
    exact ⟨_, _, _, _, rfl⟩
  · intro h
    rw [trace_read_word_data, if_pos h]
    exact ⟨_, _, _, _, rfl⟩
  · intro h
    rw [trace_write_word_data, if_pos h]
    exact ⟨_, _, _, _, rfl⟩
  · intro h
    rw [trace_process_call, if_pos h]
    exact ⟨_, _, _, _, rfl⟩
  · intro h
    rw [trace_read_block_data, if_pos h]
    exact ⟨_, _, _, _, rfl⟩
  · intro h
    rw [trace_write_block_data, if_pos h]
    exact ⟨_, _, _, _, rfl⟩
  · intro h
    rw [trace_read_i2c_block_data, if_pos h]
    exact ⟨_, _, _, _, rfl⟩
  · intro h
    rw [trace_write_i2c_block_data, if_pos h]
    exact ⟨_, _, _, _, rfl⟩
  · intro h
    rw [trace_block_process_call, if_pos h]
    exact ⟨_, _, _, _, rfl⟩

/-- Claim C6 witness: on a fully capable session, a `write_quick` call and
a `read_block_data` call each issue the slave-address ioctl followed by
the SMBus-execute ioctl. -/
theorem access_two_ioctls_in_order_witness :
    (_access kEcho 5 1 0 0 none).2 =
      [Event.ioctlSlave _I2C_SLAVE 5,
        Event.ioctlSmbus _I2C_SMBUS 1 0 0 none] ∧
    (∃ r1 c1 s1 d1, (write_quick (mkFuncs 0xFFFFFFFF) kEcho 5 1).2 =
      [Event.ioctlSlave _I2C_SLAVE 5,
        Event.ioctlSmbus _I2C_SMBUS r1 c1 s1 d1]) ∧
    (∃ r1 c1 s1 d1, (read_block_data (mkFuncs 0xFFFFFFFF) kEcho 5 2).2 =
      [Event.ioctlSlave _I2C_SLAVE 5,
        Event.ioctlSmbus _I2C_SMBUS r1 c1 s1 d1]) := by
  have h := access_two_ioctls_in_order (mkFuncs 0xFFFFFFFF) kEcho 5 1 0 0 1 2
    4 none []
  exact ⟨h.1, h.2.2.2.1 (by decide), h.2.2.2.2.2.2.2.2.2.2.2.1 (by decide)⟩

/-- Claim C7: the capability set is a pure function (`mkFuncs`) of the
32-bit flags word read by the single `I2C_FUNCS` ioctl at construction:
each of the 19 named entries equals the boolean test of its function bit;
construction issues exactly that one ioctl, and no public operation ever
issues an `I2C_FUNCS` ioctl afterwards (in this embedding the capability
set is an immutable parameter, so no operation can mutate it). -/
theorem capability_set_pure_and_stable (flags : Nat) (func : Funcs)
    (k : Kern) (a cmd v len : Nat) (vals : List Nat) :
    SMBus_init flags = (mkFuncs flags, [Event.ioctlFuncs _I2C_FUNCS]) ∧
    (mkFuncs flags).i2c = (flags &&& _I2C_FUNC_I2C != 0) ∧
    (mkFuncs flags).ten_bit_addr = (flags &&& _I2C_FUNC_10BIT_ADDR != 0) ∧
    (mkFuncs flags).protocol_mangling =
      (flags &&& _I2C_FUNC_PROTOCOL_MANGLING != 0) ∧
    (mkFuncs flags).smbus_pec = (flags &&& _I2C_FUNC_SMBUS_PEC != 0) ∧
    (mkFuncs flags).no_start = (flags &&& _I2C_FUNC_NOSTART != 0) ∧
    (mkFuncs flags).slave = (flags &&& _I2C_FUNC_SLAVE != 0) ∧
    (mkFuncs flags).smbus_block_proc_call =
      (flags &&& _I2C_FUNC_SMBUS_BLOCK_PROC_CALL != 0) ∧
    (mkFuncs flags).smbus_quick = (flags &&& _I2C_FUNC_SMBUS_QUICK != 0) ∧
    (mkFuncs flags).smbus_read_byte =
      (flags &&& _I2C_FUNC_SMBUS_READ_BYTE != 0) ∧
    (mkFuncs flags).smbus_write_byte =
      (flags &&& _I2C_FUNC_SMBUS_WRITE_BYTE != 0) ∧
    (mkFuncs flags).smbus_read_byte_data =
      (flags &&& _I2C_FUNC_SMBUS_READ_BYTE_DATA != 0) ∧
    (mkFuncs flags).smbus_write_byte_data =
      (flags &&& _I2C_FUNC_SMBUS_WRITE_BYTE_DATA != 0) ∧
    (mkFuncs flags).smbus_read_word_data =
      (flags &&& _I2C_FUNC_SMBUS_READ_WORD_DATA != 0) ∧
    (mkFuncs flags).smbus_write_word_data =
      (flags &&& _I2C_FUNC_SMBUS_WRITE_WORD_DATA != 0) ∧
    (mkFuncs flags).smbus_proc_call =
      (flags &&& _I2C_FUNC_SMBUS_PROC_CALL != 0) ∧
    (mkFuncs flags).smbus_read_block_data =
      (flags &&& _I2C_FUNC_SMBUS_READ_BLOCK_DATA != 0) ∧
    (mkFuncs flags).smbus_write_block_data =
      (flags &&& _I2C_FUNC_SMBUS_WRITE_BLOCK_DATA != 0) ∧
    (mkFuncs flags).smbus_read_i2c_block =
      (flags &&& _I2C_FUNC_SMBUS_READ_I2C_BLOCK != 0) ∧
    (mkFuncs flags).smbus_write_i2c_block =
      (flags &&& _I2C_FUNC_SMBUS_WRITE_I2C_BLOCK != 0) ∧
    (∀ e ∈ (write_quick func k a v).2, Event.req e ≠ _I2C_FUNCS) ∧
    (∀ e ∈ (read_byte func k a).2, Event.req e ≠ _I2C_FUNCS) ∧
    (∀ e ∈ (write_byte func k a v).2, Event.req e ≠ _I2C_FUNCS) ∧
    (∀ e ∈ (read_byte_data func k a cmd).2, Event.req e ≠ _I2C_FUNCS) ∧
    (∀ e ∈ (write_byte_data func k a cmd v).2, Event.req e ≠ _I2C_FUNCS) ∧
    (∀ e ∈ (read_word_data func k a cmd).2, Event.req e ≠ _I2C_FUNCS) ∧
    (∀ e ∈ (write_word_data func k a cmd v).2, Event.req e ≠ _I2C_FUNCS) ∧
    (∀ e ∈ (process_call func k a cmd v).2, Event.req e ≠ _I2C_FUNCS) ∧
    (∀ e ∈ (read_block_data func k a cmd).2, Event.req e ≠ _I2C_FUNCS) ∧
    (∀ e ∈ (write_block_data func k a cmd vals).2,
      Event.req e ≠ _I2C_FUNCS) ∧
    (∀ e ∈ (read_i2c_block_data func k a cmd len).2,
      Event.req e ≠ _I2C_FUNCS) ∧
    (∀ e ∈ (write_i2c_block_data func k a cmd vals).2,
      Event.req e ≠ _I2C_FUNCS) ∧
    (∀ e ∈ (block_process_call func k a cmd vals).2,
      Event.req e ≠ _I2C_FUNCS) := by
  refine ⟨rfl, rfl, rfl, rfl, rfl, rfl, rfl, rfl, rfl, rfl, rfl, rfl, rfl,
    rfl, rfl, rfl, rfl, rfl, rfl, rfl,
    ?_, ?_, ?_, ?_, ?_, ?_, ?_, ?_, ?_, ?_, ?_, ?_, ?_⟩
  · intro e he
    rw [trace_write_quick] at he
    split at he
    · exact access_req_ne_funcs _ _ _ _ _ _ e he
    · simp at he
  · intro e he
    rw [trace_read_byte] at he
    split at he
    · exact access_req_ne_funcs _ _ _ _ _ _ e he
    · simp at he
  · intro e he
    rw [trace_write_byte] at he
    split at he
    · exact access_req_ne_funcs _ _ _ _ _ _ e he
    · simp at he
  · intro e he
    rw [trace_read_byte_data] at he
    split at he
    · exact access_req_ne_funcs _ _ _ _ _ _ e he
    · simp at he
  · intro e he
    rw [trace_write_byte_data] at he
    split at he
    · exact access_req_ne_funcs _ _ _ _ _ _ e he
    · simp at he
  · intro e he
    rw [trace_read_word_data] at he
    split at he
    · exact access_req_ne_funcs _ _ _ _ _ _ e he
    · simp at he
  · intro e he
    rw [trace_write_word_data] at he
    split at he
    · exact access_req_ne_funcs _ _ _ _ _ _ e he
    · simp at he
  · intro e he
    rw [trace_process_call] at he
    split at he
    · exact access_req_ne_funcs _ _ _ _ _ _ e he
    · simp at he
  · intro e he
    rw [trace_read_block_data] at he
    split at he
    · exact access_req_ne_funcs _ _ _ _ _ _ e he
    · simp at he
  · intro e he
    rw [trace_write_block_data] at he
    split at he
    · exact access_req_ne_funcs _ _ _ _ _ _ e he
    · simp at he
  · intro e he
    rw [trace_read_i2c_block_data] at he
    split at he
    · exact access_req_ne_funcs _ _ _ _ _ _ e he
    · simp at he
  · intro e he
    rw [trace_write_i2c_block_data] at he
    split at he
    · exact access_req_ne_funcs _ _ _ _ _ _ e he
    · simp at he
  · intro e he
    rw [trace_block_process_call] at he
    split at he
    · exact access_req_ne_funcs _ _ _ _ _ _ e he
    · simp at he

/-- Claim C7 witness: construction with flags word `0x00010001` yields the
expected entries and one `I2C_FUNCS` ioctl, and a concrete `write_quick`
call issues no `I2C_FUNCS` ioctl. -/
theorem capability_set_pure_and_stable_witness :
    SMBus_init 0x00010001 =
      (mkFuncs 0x00010001, [Event.ioctlFuncs _I2C_FUNCS]) ∧
    (mkFuncs 0x00010001).smbus_quick =
      (0x00010001 &&& _I2C_FUNC_SMBUS_QUICK != 0) ∧
    Event.req (Event.ioctlSlave _I2C_SLAVE 5) ≠ _I2C_FUNCS := by
  have h := capability_set_pure_and_stable 0x00010001 (mkFuncs 0x00010001)
    kEcho 5 2 1 4 []
  refine ⟨h.1, h.2.2.2.2.2.2.2.2.1, ?_⟩
  exact h.2.2.2.2.2.2.2.2.2.2.2.2.2.2.2.2.2.2.2.2.1
    (Event.ioctlSlave _I2C_SLAVE 5) (by decide)

lemma blockSlice_length_le (b : List Nat) :
    (blockSlice b).length ≤ b.getD 0 0 := by
  rw [blockSlice, List.length_take]
  omega

/-- A kernel that fills the data buffer with zeros (length byte 0). -/
def kZero : Kern := fun _ _ _ _ _ => List.replicate 34 0

/-- Claim C9: for every requested length greater than 32,
`read_i2c_block_data` behaves exactly as if the length were 32: the call
is literally equal to the length-32 call, the length byte written into
the submitted buffer is 32, the legacy size code 6 is selected, and (for
any kernel that writes a length byte of at most 32) at most 32 bytes are
returned; lengths up to 32 are passed through unclamped, so the clamping
applies only to the upper bound. -/
theorem i2c_block_read_upper_clamp_only (func : Funcs) (k : Kern)
    (a c len : Nat)
    (h : func.smbus_read_i2c_block = true) (hlen : 32 < len) :
    read_i2c_block_data func k a c len = read_i2c_block_data func k a c 32 ∧
    (sentData (read_i2c_block_data func k a c len).2).getD 0 0 = 32 ∧
    sentSize (read_i2c_block_data func k a c len).2 =
      _I2C_SMBUS_I2C_BLOCK_BROKEN ∧
    ((∀ a1 r1 c1 s1 d1, (k a1 r1 c1 s1 d1).getD 0 0 ≤ 32) →
      ∀ res, (read_i2c_block_data func k a c len).1 = Except.ok res →
        res.length ≤ 32) ∧
    (∀ m, m ≤ 32 →
      (sentData (read_i2c_block_data func k a c m).2).getD 0 0 = m) := by
  have hmin : min len 32 = 32 := by omega
  refine ⟨?_, ?_, ?_, ?_, ?_⟩
  · simp [read_i2c_block_data, h, hmin]
  · simp [read_i2c_block_data, h, hmin, _access, sentData, freshData_explicit,
      List.set]
  · simp [read_i2c_block_data, h, hmin, _access, sentSize]
  · intro hk res hres
    simp [read_i2c_block_data, h, hmin, _access] at hres
    subst hres
    exact le_trans (blockSlice_length_le _) (hk _ _ _ _ _)
  · intro m hm
    have hm32 : min m 32 = m := by omega
    simp [read_i2c_block_data, h, hm32, _access, sentData, freshData_explicit,
      List.set]
    omega

/-- Claim C9 witness: requesting 40 bytes behaves as requesting 32 — size
code 6, length byte 32, and at most 32 bytes come back from a kernel that
writes a length byte of 0 — while a request of 5 writes length byte 5. -/
theorem i2c_block_read_upper_clamp_only_witness :
    read_i2c_block_data (mkFuncs 0xFFFFFFFF) kZero 5 2 40 =
      read_i2c_block_data (mkFuncs 0xFFFFFFFF) kZero 5 2 32 ∧
    (sentData (read_i2c_block_data (mkFuncs 0xFFFFFFFF) kZero 5 2 40).2).getD
      0 0 = 32 ∧
    sentSize (read_i2c_block_data (mkFuncs 0xFFFFFFFF) kZero 5 2 40).2 =
      _I2C_SMBUS_I2C_BLOCK_BROKEN ∧
    ([] : List Nat).length ≤ 32 ∧
    (sentData (read_i2c_block_data (mkFuncs 0xFFFFFFFF) kZero 5 2 5).2).getD
      0 0 = 5 := by
  have h := i2c_block_read_upper_clamp_only (mkFuncs 0xFFFFFFFF) kZero 5 2 40
    (by decide) (by decide)
  have hk : ∀ a1 r1 c1 s1 d1, (kZero a1 r1 c1 s1 d1).getD 0 0 ≤ 32 := by
    intro a1 r1 c1 s1 d1
    show (List.replicate 34 0).getD 0 0 ≤ 32
    decide
  exact ⟨h.1, h.2.1, h.2.2.1, h.2.2.2.1 hk [] rfl,
    h.2.2.2.2 5 (by decide)⟩

/-- Claim C10: the block demarshal shared by `read_block_data`,
`read_i2c_block_data` and `block_process_call` returns exactly buffer
bytes `1..block[0]` — a list of `min block[0] 33` elements — trusting the
kernel-written length byte without re-clamping to 32, so a length byte of
33 yields the whole 33-byte tail including the reserved byte at offset
33. -/
theorem block_demarshal_trusts_kernel_length (func : Funcs)
    (a c len : Nat) (vals : List Nat) (d : List Nat)
    (h1 : func.smbus_read_block_data = true)
    (h2 : func.smbus_read_i2c_block = true)
    (h3 : func.smbus_block_proc_call = true)
    (hd : d.length = 34) :
    blockSlice d = (d.drop 1).take (d.getD 0 0) ∧
    (blockSlice d).length = min (d.getD 0 0) 33 ∧
    (d.getD 0 0 = 33 → blockSlice d = d.drop 1 ∧ (blockSlice d).length = 33) ∧
    (read_block_data func (fun _ _ _ _ _ => d) a c).1 =
      Except.ok (blockSlice d) ∧
    (read_i2c_block_data func (fun _ _ _ _ _ => d) a c len).1 =
      Except.ok (blockSlice d) ∧
    (block_process_call func (fun _ _ _ _ _ => d) a c vals).1 =
      Except.ok (blockSlice d) := by
  have hdrop : (d.drop 1).length = 33 := by
    rw [List.length_drop, hd]
  refine ⟨rfl, ?_, ?_, ?_, ?_, ?_⟩
  · rw [blockSlice, List.length_take, hdrop]
  · intro h33
    have hall : blockSlice d = d.drop 1 := by
      rw [blockSlice, h33]
      exact List.take_of_length_le (by rw [hdrop])
    exact ⟨hall, by rw [hall, hdrop]⟩
  · simp [read_block_data, h1, _access]
  · simp [read_i2c_block_data, h2, _access]
  · simp [block_process_call, h3, _access]

/-- Claim C10 witness: a kernel-written buffer whose length byte is 33
demarshals to all 33 tail bytes, ending in the reserved byte. -/
theorem block_demarshal_trusts_kernel_length_witness :
    blockSlice ((33 :: List.replicate 32 7) ++ [99]) =
      (((33 :: List.replicate 32 7) ++ [99]).drop 1).take 33 ∧
    (blockSlice ((33 :: List.replicate 32 7) ++ [99])).length = 33 ∧
    blockSlice ((33 :: List.replicate 32 7) ++ [99]) =
      ((33 :: List.replicate 32 7) ++ [99]).drop 1 ∧
    (read_block_data (mkFuncs 0xFFFFFFFF)
      (fun _ _ _ _ _ => (33 :: List.replicate 32 7) ++ [99]) 5 2).1 =
      Except.ok (blockSlice ((33 :: List.replicate 32 7) ++ [99])) := by
  have h := block_demarshal_trusts_kernel_length (mkFuncs 0xFFFFFFFF) 5 2 4
    [] ((33 :: List.replicate 32 7) ++ [99]) (by decide) (by decide)
    (by decide) (by decide)
  have h33 := h.2.2.1 (by decide)
  exact ⟨by rw [h.1]; decide, h33.2, h33.1, h.2.2.2.1⟩

end ULinuxSMBus
